import Mathlib

/-!
Verification development for the `bimakw/api-gateway` repository.

Each Go package under scrutiny is embedded as a Lean namespace holding
executable definitions translated from the source, followed by theorems
about the claims of the specification.

Conventions of the embedding:
* Go `int`/`int64` fields become `ℤ`; `uint64` arithmetic is `ℕ` reduced
  `% 2 ^ 64` where the source wraps.
* `time.Time` / `time.Duration` values are integer nanosecond counts; the
  ambient clock is passed explicitly as a `now : ℤ` argument to every
  operation that calls `time.Now()` or `time.Since`.
* Go `float64` arithmetic is modelled over `ℚ` (exact real-valued
  semantics of the same expressions); `int(x)` truncation toward zero is
  `goTrunc`.
* Fallible Go functions returning `(T, error)` become `Except GoError T`;
  mutation of a receiver becomes explicit state passing.
-/

/-- Truncation of a rational toward zero, the semantics of Go's
`int(x)` / `int64(x)` conversion from a float. -/
def goTrunc (q : ℚ) : ℤ :=
  if q < 0 then -⌊-q⌋ else ⌊q⌋

namespace circuitbreaker

/-- Go `circuitbreaker.State` (`src/unnamed/part_005`). -/
inductive State where
  | StateClosed
  | StateOpen
  | StateHalfOpen
deriving DecidableEq, Repr

/-- Errors returned by `beforeRequest`. -/
inductive BreakerError where
  | ErrCircuitOpen
  | ErrTooManyRequests
deriving DecidableEq, Repr

/-- Go `circuitbreaker.Config`; durations in nanoseconds. -/
structure Config where
  MaxFailures : ℤ
  ResetTimeout : ℤ
  HalfOpenMaxRequests : ℤ
  SuccessThreshold : ℤ
deriving DecidableEq, Repr

/-- The mutable fields of Go `circuitbreaker.CircuitBreaker` together with
its config (`name` and the unused `successes` field are elided;
`lastFailure` is a nanosecond timestamp). -/
structure CircuitBreaker where
  config : Config
  state : State
  failures : ℤ
  lastFailure : ℤ
  halfOpenRequests : ℤ
  consecutiveSuccesses : ℤ
deriving DecidableEq, Repr

/-- Go `(*CircuitBreaker).toOpen`; `time.Now()` is the explicit `now`. -/
def toOpen (cb : CircuitBreaker) (now : ℤ) : CircuitBreaker :=
  { cb with state := .StateOpen, lastFailure := now, consecutiveSuccesses := 0 }

/-- Go `(*CircuitBreaker).toClosed`. -/
def toClosed (cb : CircuitBreaker) : CircuitBreaker :=
  { cb with state := .StateClosed, failures := 0, consecutiveSuccesses := 0,
            halfOpenRequests := 0 }

/-- Go `(*CircuitBreaker).toHalfOpen`. -/
def toHalfOpen (cb : CircuitBreaker) : CircuitBreaker :=
  { cb with state := .StateHalfOpen, halfOpenRequests := 0, consecutiveSuccesses := 0 }

/-- Go `(*CircuitBreaker).beforeRequest`; `time.Since(cb.lastFailure)` is
`now - cb.lastFailure`.  Returns the error (if any) and the updated
breaker. -/
def beforeRequest (cb : CircuitBreaker) (now : ℤ) :
    Option BreakerError × CircuitBreaker :=
  match cb.state with
  | .StateClosed => (none, cb)
  | .StateOpen =>
      if now - cb.lastFailure ≥ cb.config.ResetTimeout then
        (none, toHalfOpen cb)
      else
        (some .ErrCircuitOpen, cb)
  | .StateHalfOpen =>
      if cb.halfOpenRequests ≥ cb.config.HalfOpenMaxRequests then
        (some .ErrTooManyRequests, cb)
      else
        (none, { cb with halfOpenRequests := cb.halfOpenRequests + 1 })

/-- Go `(*CircuitBreaker).AllowRequest`: true iff `beforeRequest` returns
no error. -/
def AllowRequest (cb : CircuitBreaker) (now : ℤ) : Bool × CircuitBreaker :=
  let r := beforeRequest cb now
  (r.1.isNone, r.2)

/-- Go `(*CircuitBreaker).afterRequest`. -/
def afterRequest (cb : CircuitBreaker) (success : Bool) (now : ℤ) : CircuitBreaker :=
  match cb.state with
  | .StateClosed =>
      if success then
        { cb with failures := 0 }
      else
        let cb2 := { cb with failures := cb.failures + 1, lastFailure := now }
        if cb2.failures ≥ cb2.config.MaxFailures then toOpen cb2 now else cb2
  | .StateHalfOpen =>
      if success then
        let cb2 := { cb with consecutiveSuccesses := cb.consecutiveSuccesses + 1 }
        if cb2.consecutiveSuccesses ≥ cb2.config.SuccessThreshold then toClosed cb2 else cb2
      else
        toOpen cb now
  | .StateOpen => cb

/-- Go `(*CircuitBreaker).RecordSuccess`. -/
def RecordSuccess (cb : CircuitBreaker) (now : ℤ) : CircuitBreaker :=
  afterRequest cb true now

/-- Go `(*CircuitBreaker).RecordFailure`. -/
def RecordFailure (cb : CircuitBreaker) (now : ℤ) : CircuitBreaker :=
  afterRequest cb false now

/-- `n` consecutive `RecordFailure` calls, the `i`-th at time `t i`. -/
def recordFailures (cb : CircuitBreaker) (t : ℕ → ℤ) : ℕ → CircuitBreaker
  | 0 => cb
  | n + 1 => RecordFailure (recordFailures cb t n) (t n)

/-- State after `n` consecutive `AllowRequest` calls, the `i`-th at time
`t i`. -/
def allowRun (cb : CircuitBreaker) (t : ℕ → ℤ) : ℕ → CircuitBreaker
  | 0 => cb
  | n + 1 => (AllowRequest (allowRun cb t n) (t n)).2

end circuitbreaker

namespace loadbalancer

/-- Go `loadbalancer.Backend` (`src/unnamed/part_009`); the `*url.URL` is
kept as its string form. -/
structure Backend where
  URL : String
  Weight : ℤ
  IsHealthy : Bool
deriving DecidableEq, Repr

/-- Wraparound modulus of the Go `uint64` counter. -/
def U64 : ℕ := 2 ^ 64

/-- Go `loadbalancer.RoundRobinSelector` (`src/unnamed/part_010`); the
`uint64` counter is a natural number kept reduced modulo `2 ^ 64`. -/
structure RoundRobinSelector where
  backends : List Backend
  counter : ℕ
deriving DecidableEq, Repr

/-- The scan loop of `(*RoundRobinSelector).Select`: each iteration first
advances the counter (`atomic.AddUint64(&r.counter, 1)` returns the new
value) and probes the backend at `counter % n`.  Returns the found backend
(if any) and the final counter. -/
def selectScan (bs : List Backend) : ℕ → ℕ → Option Backend × ℕ
  | counter, 0 => (none, counter)
  | counter, fuel + 1 =>
      match bs[((counter + 1) % U64) % bs.length]? with
      | some b =>
          if b.IsHealthy then (some b, (counter + 1) % U64)
          else selectScan bs ((counter + 1) % U64) fuel
      | none => (none, (counter + 1) % U64)

/-- Go `(*RoundRobinSelector).Select`: empty list or no healthy backend
returns `none` without touching the counter; otherwise the scan runs for
up to `len(backends)` iterations. -/
def Select (r : RoundRobinSelector) : Option Backend × RoundRobinSelector :=
  if r.backends.length = 0 then (none, r)
  else if r.backends.countP (fun b => b.IsHealthy) = 0 then (none, r)
  else
    ((selectScan r.backends r.counter r.backends.length).1,
     { r with counter := (selectScan r.backends r.counter r.backends.length).2 })

/-- Number of scan iterations `selectScan` performs (each iteration is one
counter increment). -/
def scanSteps (bs : List Backend) : ℕ → ℕ → ℕ
  | _, 0 => 0
  | counter, fuel + 1 =>
      match bs[((counter + 1) % U64) % bs.length]? with
      | some b => if b.IsHealthy then 1 else 1 + scanSteps bs ((counter + 1) % U64) fuel
      | none => 1

/-- Health of the backend at a given index (`false` when out of range). -/
def candidateHealthy (bs : List Backend) (idx : ℕ) : Bool :=
  match bs[idx]? with
  | some b => b.IsHealthy
  | none => false

end loadbalancer

namespace ratelimit

/-- Go `ratelimit.RateLimiter` (`src/unnamed/part_011`) minus the redis
handle: `requests` per window and the window duration in nanoseconds. -/
structure RateLimiter where
  requests : ℤ
  window : ℤ
deriving DecidableEq, Repr

/-- Go `ratelimit.Result`; `ResetAfter` is a `time.Duration` in
nanoseconds (the source truncates a float to it). -/
structure Result where
  Allowed : Bool
  Remaining : ℤ
  ResetAfter : ℤ
deriving DecidableEq, Repr

/-- The two values `AllowWithBurst` writes back to the KV (both with TTL
`2 × window`, not modelled). -/
structure KVWrite where
  tokens : ℚ
  lastUpdate : ℤ
deriving DecidableEq, Repr

/-- Go `(*RateLimiter).AllowWithBurst`.  The two KV reads are passed in as
`kvTokens` / `kvLast`; `none` stands for any failed `Get` — a missing key
*or* an unreachable KV, since the source checks only `err == nil` on each
command and ignores the pipeline error.  String round-tripping through
`Sscanf`/`Sprintf` is elided (values arrive typed).  The Go function's
`error` result is always `nil`: every return site of the source is
`Except.ok` here. -/
def AllowWithBurst (rl : RateLimiter) (now : ℤ) (kvTokens : Option ℚ)
    (kvLast : Option ℤ) (burstSize : ℤ) : Except String (Result × KVWrite) :=
  let tokens : ℚ := match kvTokens with | some t => t | none => (burstSize : ℚ)
  let lastUpdate : ℤ := match kvLast with | some l => l | none => now
  let elapsed : ℤ := now - lastUpdate
  let tokensPerSecond : ℚ := (rl.requests : ℚ) / ((rl.window : ℚ) / 1000000000)
  let tokensToAdd : ℚ := ((elapsed : ℚ) / 1000000000) * tokensPerSecond
  let tokens2 : ℚ := min (burstSize : ℚ) (tokens + tokensToAdd)
  let allowed : Bool := decide (1 ≤ tokens2)
  let tokens3 : ℚ := if allowed then tokens2 - 1 else tokens2
  Except.ok
    ({ Allowed := allowed, Remaining := goTrunc tokens3,
       ResetAfter := goTrunc ((1000000000 : ℚ) / tokensPerSecond) },
     { tokens := tokens3, lastUpdate := now })

/-- The spec's refill formula (§4.1 step 2), `min(burst_size,
tokens + elapsed_seconds × rate)` with `rate = requests_per_window /
window_seconds`, written from the spec's words to state C4 as a
refinement of the source computation. -/
def specRefill (rl : RateLimiter) (now : ℤ) (t : ℚ) (u : ℤ) (burstSize : ℤ) : ℚ :=
  min (burstSize : ℚ)
    (t + ((now - u : ℤ) : ℚ) / 1000000000 *
      ((rl.requests : ℚ) / ((rl.window : ℚ) / 1000000000)))

/-- The spec's post-decision token count (§4.1 step 3): one token is
deducted exactly when the refilled count admits the request. -/
def specPostTokens (rl : RateLimiter) (now : ℤ) (t : ℚ) (u : ℤ) (burstSize : ℤ) : ℚ :=
  if 1 ≤ specRefill rl now t u burstSize then specRefill rl now t u burstSize - 1
  else specRefill rl now t u burstSize

end ratelimit

namespace retry

/-- Go `error` values as the retry engine distinguishes them: the two
context sentinels (matched via `errors.Is`) and everything else by its
message string. -/
inductive GoError where
  | contextCanceled
  | contextDeadlineExceeded
  | errMsg (s : String)
deriving DecidableEq, Repr

/-- `err.Error()` for the modelled errors. -/
def errString : GoError → String
  | .contextCanceled => "context canceled"
  | .contextDeadlineExceeded => "context deadline exceeded"
  | .errMsg s => s

/-- ASCII lower-casing of one character (Go `toLower` works bytewise on
`A`..`Z`). -/
def toLowerChar (c : Char) : Char :=
  if 'A' ≤ c ∧ c ≤ 'Z' then Char.ofNat (c.toNat + 32) else c

/-- Go `retry.toLower`. -/
def strToLower (s : String) : String :=
  ⟨s.data.map toLowerChar⟩

/-- Whether `pre` is a prefix of `s` (character lists). -/
def listHasPre : List Char → List Char → Bool
  | _, [] => true
  | [], _ :: _ => false
  | a :: s, b :: t => (a == b) && listHasPre s t

/-- Whether `sub` occurs contiguously in `s`, the loop of Go
`retry.containsIgnoreCase` after lower-casing. -/
def listContainsSub (s sub : List Char) : Bool :=
  listHasPre s sub ||
    (match s with
     | [] => false
     | _ :: s2 => listContainsSub s2 sub)

/-- Go `retry.containsIgnoreCase`. -/
def containsIgnoreCase (s substr : String) : Bool :=
  listContainsSub (strToLower s).data (strToLower substr).data

/-- The substring patterns of Go `retry.isTransientError`. -/
def transientPatterns : List String :=
  ["connection refused", "connection reset", "no such host", "i/o timeout",
   "temporary failure", "network is unreachable", "connection timed out", "EOF"]

/-- Go `retry.isTransientError`. -/
def isTransientError : Option GoError → Bool
  | none => false
  | some .contextCanceled => false
  | some .contextDeadlineExceeded => false
  | some e => transientPatterns.any (fun p => containsIgnoreCase (errString e) p)

/-- Go `retry.Config`; durations in nanoseconds, floats as `ℚ`. -/
structure Config where
  MaxRetries : ℤ
  InitialDelay : ℚ
  MaxDelay : ℚ
  Multiplier : ℚ
  JitterFactor : ℚ
  RetryableStatusCodes : List ℤ
deriving DecidableEq, Repr

/-- Go `retry.Retryer`. -/
structure Retryer where
  config : Config
deriving DecidableEq, Repr

/-- Go `retry.New`: field-by-field validation applying defaults
(100ms = 1e8 ns initial, 5s = 5e9 ns max). -/
def New (cfg : Config) : Retryer :=
  let cfg := if cfg.MaxRetries < 0 then { cfg with MaxRetries := 0 } else cfg
  let cfg := if cfg.InitialDelay ≤ 0 then { cfg with InitialDelay := 100000000 } else cfg
  let cfg := if cfg.MaxDelay ≤ 0 then { cfg with MaxDelay := 5000000000 } else cfg
  let cfg := if cfg.Multiplier ≤ 0 then { cfg with Multiplier := 2 } else cfg
  let cfg := if cfg.JitterFactor < 0 ∨ cfg.JitterFactor > 1 then
    { cfg with JitterFactor := 1 / 10 } else cfg
  let cfg := if cfg.RetryableStatusCodes = [] then
    { cfg with RetryableStatusCodes := [502, 503, 504] } else cfg
  ⟨cfg⟩

/-- Go `retry.Result`. -/
structure Result where
  Attempts : ℤ
  LastError : Option GoError
  StatusCode : ℤ
  Retried : Bool
deriving DecidableEq, Repr

/-- Go `(*Retryer).ShouldRetry`. -/
def ShouldRetry (r : Retryer) (statusCode : ℤ) : Bool :=
  r.config.RetryableStatusCodes.any (fun code => code == statusCode)

/-- The exponential delay of `GetDelay` after the max-delay cap and
before jitter (the two `delay :=` assignments of the source, inlined). -/
def cappedDelay (r : Retryer) (attempt : ℤ) : ℚ :=
  if r.config.InitialDelay * r.config.Multiplier ^ attempt.toNat > r.config.MaxDelay
  then r.config.MaxDelay
  else r.config.InitialDelay * r.config.Multiplier ^ attempt.toNat

/-- Go `(*Retryer).GetDelay`; `u ∈ [0,1]` stands for the `rand.Float64()`
draw (`jitter = delay × jitter_factor × (2u − 1)`).  The final truncation
of the float to integer nanoseconds (`time.Duration(delay)`) is elided:
delays stay in `ℚ`. -/
def GetDelay (r : Retryer) (u : ℚ) (attempt : ℤ) : ℚ :=
  if attempt ≤ 0 then r.config.InitialDelay
  else if r.config.JitterFactor > 0 then
    cappedDelay r attempt + cappedDelay r attempt * r.config.JitterFactor * (u * 2 - 1)
  else cappedDelay r attempt

/-- The loop of Go `(*Retryer).Execute`.  `attempt` is the loop variable;
`fuel` is the number of loop iterations left (`maxRetries + 1 - attempt`);
`ctxCheckErr k` is `ctx.Err()` at the head of iteration `k`; `sleepErr k`
is `some e` when `ctx.Done()` fires during iteration `k`'s backoff sleep;
`u k` is the `rand.Float64()` draw of that sleep's `GetDelay`; `fn k` is
the result of the `k`-th invocation of the wrapped function.  Alongside
the `Result` it returns the list of slept backoff delays in order. -/
def executeLoop (r : Retryer) (ctxCheckErr : ℕ → Option GoError)
    (sleepErr : ℕ → Option GoError) (u : ℕ → ℚ) (fn : ℕ → ℤ × Option GoError) :
    ℕ → ℕ → Result × List ℚ → Result × List ℚ
  | _, 0, (res, ds) =>
      (match res.LastError with
       | none => { res with LastError := some (.errMsg "max retries exceeded") }
       | some _ => res, ds)
  | attempt, fuel + 1, (res, ds) =>
      let res := { res with Attempts := (attempt : ℤ) + 1 }
      match ctxCheckErr attempt with
      | some e => ({ res with LastError := some e }, ds)
      | none =>
        let res := if attempt == 0 then res else { res with Retried := true }
        match (if attempt == 0 then none else sleepErr attempt) with
        | some e => ({ res with LastError := some e }, ds)
        | none =>
          let ds := if attempt == 0 then ds
                    else ds ++ [GetDelay r (u attempt) ((attempt : ℤ) - 1)]
          let call := fn attempt
          let res := { res with StatusCode := call.1, LastError := call.2 }
          match call.2 with
          | none =>
              if ShouldRetry r call.1 then
                executeLoop r ctxCheckErr sleepErr u fn (attempt + 1) fuel (res, ds)
              else (res, ds)
          | some e =>
              if isTransientError (some e) then
                executeLoop r ctxCheckErr sleepErr u fn (attempt + 1) fuel (res, ds)
              else (res, ds)

/-- Go `(*Retryer).Execute`: runs the loop for `maxRetries + 1` iterations
starting from the zero-valued `Result`. -/
def Execute (r : Retryer) (ctxCheckErr : ℕ → Option GoError)
    (sleepErr : ℕ → Option GoError) (u : ℕ → ℚ)
    (fn : ℕ → ℤ × Option GoError) : Result × List ℚ :=
  executeLoop r ctxCheckErr sleepErr u fn 0 (r.config.MaxRetries + 1).toNat
    ({ Attempts := 0, LastError := none, StatusCode := 0, Retried := false }, [])

end retry

namespace health

/-- Go `health.Status`. -/
inductive Status where
  | StatusHealthy
  | StatusUnhealthy
  | StatusUnknown
deriving DecidableEq, Repr

/-- Go `health.InstanceHealth`; `LastCheck` in nanoseconds. -/
structure InstanceHealth where
  URL : String
  Status : Status
  LastCheck : ℤ
  ResponseTime : ℤ
  ErrorMessage : String
deriving DecidableEq, Repr

/-- The aggregated-status computation of Go
`(*Checker).updateAggregatedHealth` for one service: count the instances
whose status is healthy; all healthy and partially healthy both yield
healthy, none healthy yields unhealthy; a service whose instance map is
empty is skipped (`continue`), keeping its old status.  The response-time
averaging and error-message bookkeeping of the source do not affect the
status and are not modelled. -/
def aggregatedStatus (instances : List InstanceHealth) (old : Status) : Status :=
  if instances.length = 0 then old
  else
    let healthyCount := instances.countP (fun i => i.Status == Status.StatusHealthy)
    if healthyCount = instances.length then .StatusHealthy
    else if 0 < healthyCount then .StatusHealthy
    else .StatusUnhealthy

end health

namespace circuitbreaker

lemma afterRequest_open_eq (cb : CircuitBreaker) (success : Bool) (now : ℤ)
    (h : cb.state = State.StateOpen) : afterRequest cb success now = cb := by
  unfold afterRequest
  rw [h]

/-- C10: while the breaker is in the open state, `RecordSuccess` and
`RecordFailure` leave the entire breaker record unchanged (state,
failures, consecutive successes, half-open request count, and the last
failure time); in particular failures recorded while open do not postpone
the time at which the open-to-half-open transition becomes possible. -/
theorem breaker_open_record_frame (cb : CircuitBreaker) (now now2 : ℤ)
    (h : cb.state = State.StateOpen) :
    RecordSuccess cb now = cb ∧ RecordFailure cb now2 = cb :=
  ⟨afterRequest_open_eq cb true now h, afterRequest_open_eq cb false now2 h⟩

/-- Witness for the C10 theorem at a concrete open breaker. -/
theorem breaker_open_record_frame_witness :
    RecordSuccess { config := ⟨5, 30, 3, 2⟩, state := .StateOpen, failures := 5,
                    lastFailure := 17, halfOpenRequests := 0,
                    consecutiveSuccesses := 0 } 40 =
      { config := ⟨5, 30, 3, 2⟩, state := .StateOpen, failures := 5,
        lastFailure := 17, halfOpenRequests := 0, consecutiveSuccesses := 0 } ∧
    RecordFailure { config := ⟨5, 30, 3, 2⟩, state := .StateOpen, failures := 5,
                    lastFailure := 17, halfOpenRequests := 0,
                    consecutiveSuccesses := 0 } 55 =
      { config := ⟨5, 30, 3, 2⟩, state := .StateOpen, failures := 5,
        lastFailure := 17, halfOpenRequests := 0, consecutiveSuccesses := 0 } :=
  breaker_open_record_frame _ 40 55 rfl

lemma recordFailures_closed_aux (cb : CircuitBreaker) (t : ℕ → ℤ) (k : ℕ)
    (hs : cb.state = State.StateClosed) (hf : cb.failures = 0)
    (hk : (k : ℤ) < cb.config.MaxFailures) :
    (recordFailures cb t k).state = State.StateClosed ∧
    (recordFailures cb t k).failures = (k : ℤ) ∧
    (recordFailures cb t k).config = cb.config := by
  induction k with
  | zero => exact ⟨hs, by simpa using hf, rfl⟩
  | succ n ih =>
      obtain ⟨ihs, ihf, ihc⟩ := ih (by push_cast at hk ⊢; omega)
      have hlt : ¬((recordFailures cb t n).failures + 1 ≥
          (recordFailures cb t n).config.MaxFailures) := by
        rw [ihf, ihc]; push_cast at hk ⊢; omega
      show (RecordFailure (recordFailures cb t n) (t n)).state = _ ∧
        (RecordFailure (recordFailures cb t n) (t n)).failures = _ ∧
        (RecordFailure (recordFailures cb t n) (t n)).config = _
      unfold RecordFailure afterRequest
      rw [ihs]
      simp only [Bool.false_eq_true, if_false, if_neg hlt]
      refine ⟨trivial, ?_, ihc⟩
      rw [ihf]
      push_cast
      ring

/-- C5: starting from a closed breaker with zero failures, any sequence of
`k < max_failures` consecutive `RecordFailure` calls (no intervening
success) leaves the breaker closed; and a `RecordSuccess` on any closed
breaker resets its failure count to 0 and keeps it closed. -/
theorem breaker_closed_monotone (cb cb2 : CircuitBreaker) (t : ℕ → ℤ) (k : ℕ) (now : ℤ)
    (hs : cb.state = State.StateClosed) (hf : cb.failures = 0)
    (hk : (k : ℤ) < cb.config.MaxFailures)
    (hs2 : cb2.state = State.StateClosed) :
    (recordFailures cb t k).state = State.StateClosed ∧
    (RecordSuccess cb2 now).failures = 0 ∧
    (RecordSuccess cb2 now).state = State.StateClosed := by
  refine ⟨(recordFailures_closed_aux cb t k hs hf hk).1, ?_, ?_⟩ <;>
    simp [RecordSuccess, afterRequest, hs2]

/-- Witness for the C5 theorem: four failures against `max_failures = 5`
keep the breaker closed, and a success on a closed breaker with two
failures resets them. -/
theorem breaker_closed_monotone_witness :
    (recordFailures { config := ⟨5, 30, 3, 2⟩, state := .StateClosed, failures := 0,
                      lastFailure := 0, halfOpenRequests := 0,
                      consecutiveSuccesses := 0 } (fun _ => 0) 4).state =
      State.StateClosed ∧
    (RecordSuccess { config := ⟨5, 30, 3, 2⟩, state := .StateClosed, failures := 2,
                     lastFailure := 0, halfOpenRequests := 0,
                     consecutiveSuccesses := 0 } 9).failures = 0 ∧
    (RecordSuccess { config := ⟨5, 30, 3, 2⟩, state := .StateClosed, failures := 2,
                     lastFailure := 0, halfOpenRequests := 0,
                     consecutiveSuccesses := 0 } 9).state = State.StateClosed :=
  breaker_closed_monotone _ _ (fun _ => 0) 4 9 rfl rfl (by decide) rfl

lemma beforeRequest_open_fire (cb : CircuitBreaker) (now : ℤ)
    (hs : cb.state = State.StateOpen)
    (ht : now - cb.lastFailure ≥ cb.config.ResetTimeout) :
    beforeRequest cb now = (none, toHalfOpen cb) := by
  simp only [beforeRequest, hs]
  rw [if_pos ht]

lemma beforeRequest_halfOpen_room (cb : CircuitBreaker) (now : ℤ)
    (hs : cb.state = State.StateHalfOpen)
    (hr : ¬cb.halfOpenRequests ≥ cb.config.HalfOpenMaxRequests) :
    beforeRequest cb now =
      (none, { cb with halfOpenRequests := cb.halfOpenRequests + 1 }) := by
  simp only [beforeRequest, hs]
  rw [if_neg hr]

lemma beforeRequest_halfOpen_full (cb : CircuitBreaker) (now : ℤ)
    (hs : cb.state = State.StateHalfOpen)
    (hr : cb.halfOpenRequests ≥ cb.config.HalfOpenMaxRequests) :
    beforeRequest cb now = (some BreakerError.ErrTooManyRequests, cb) := by
  simp only [beforeRequest, hs]
  rw [if_pos hr]

lemma allowRun_halfOpen_aux (cb : CircuitBreaker) (t : ℕ → ℤ) (m : ℕ)
    (hs : cb.state = State.StateOpen)
    (ht : cb.config.ResetTimeout ≤ t 0 - cb.lastFailure)
    (hm : cb.config.HalfOpenMaxRequests = (m : ℤ)) :
    ∀ i, 1 ≤ i → i ≤ m + 1 →
      (allowRun cb t i).state = State.StateHalfOpen ∧
      (allowRun cb t i).halfOpenRequests = (i : ℤ) - 1 ∧
      (allowRun cb t i).config = cb.config := by
  intro i
  induction i with
  | zero => omega
  | succ n ih =>
      intro _ hle
      rcases Nat.eq_zero_or_pos n with hn | hn
      · subst hn
        have hstep : allowRun cb t 1 = toHalfOpen cb := by
          show (AllowRequest cb (t 0)).2 = _
          unfold AllowRequest
          rw [beforeRequest_open_fire cb (t 0) hs (by omega)]
        rw [hstep]
        exact ⟨rfl, by norm_num [toHalfOpen], rfl⟩
      · obtain ⟨ihs, ihf, ihc⟩ := ih hn (by omega)
        have hroom : ¬((allowRun cb t n).halfOpenRequests ≥
            (allowRun cb t n).config.HalfOpenMaxRequests) := by
          rw [ihf, ihc, hm]; omega
        have hstep : allowRun cb t (n + 1) =
            { allowRun cb t n with
              halfOpenRequests := (allowRun cb t n).halfOpenRequests + 1 } := by
          show (AllowRequest (allowRun cb t n) (t n)).2 = _
          unfold AllowRequest
          rw [beforeRequest_halfOpen_room (allowRun cb t n) (t n) ihs hroom]
        rw [hstep]
        refine ⟨ihs, ?_, ihc⟩
        show (allowRun cb t n).halfOpenRequests + 1 = _
        rw [ihf]
        push_cast
        ring

/-- C2: an open breaker past its reset timeout admits, on the transition
call and the following half-open calls, exactly
`half_open_max_requests + 1` consecutive `AllowRequest` calls (the
transition call does not increment the half-open probe counter), and the
next call is denied: call `i` returns true for every `i ≤ m` and call
`m + 1` returns false, where `m = half_open_max_requests` and no record
calls intervene. -/
theorem breaker_half_open_admissions (cb : CircuitBreaker) (t : ℕ → ℤ) (m i : ℕ)
    (hs : cb.state = State.StateOpen)
    (ht : cb.config.ResetTimeout ≤ t 0 - cb.lastFailure)
    (hm : cb.config.HalfOpenMaxRequests = (m : ℤ))
    (hi : i ≤ m) :
    (AllowRequest (allowRun cb t i) (t i)).1 = true ∧
    (AllowRequest (allowRun cb t (m + 1)) (t (m + 1))).1 = false := by
  constructor
  · rcases Nat.eq_zero_or_pos i with h0 | h0
    · subst h0
      show (beforeRequest cb (t 0)).1.isNone = true
      rw [beforeRequest_open_fire cb (t 0) hs (by omega)]
      rfl
    · obtain ⟨ihs, ihf, ihc⟩ := allowRun_halfOpen_aux cb t m hs ht hm i h0 (by omega)
      have hroom : ¬((allowRun cb t i).halfOpenRequests ≥
          (allowRun cb t i).config.HalfOpenMaxRequests) := by
        rw [ihf, ihc, hm]; omega
      show (beforeRequest (allowRun cb t i) (t i)).1.isNone = true
      rw [beforeRequest_halfOpen_room (allowRun cb t i) (t i) ihs hroom]
      rfl
  · obtain ⟨ihs, ihf, ihc⟩ :=
      allowRun_halfOpen_aux cb t m hs ht hm (m + 1) (by omega) (le_refl _)
    have hfull : (allowRun cb t (m + 1)).halfOpenRequests ≥
        (allowRun cb t (m + 1)).config.HalfOpenMaxRequests := by
      rw [ihf, ihc, hm]; push_cast; omega
    show (beforeRequest (allowRun cb t (m + 1)) (t (m + 1))).1.isNone = false
    rw [beforeRequest_halfOpen_full (allowRun cb t (m + 1)) (t (m + 1)) ihs hfull]
    rfl

/-- Witness for the C2 theorem: `half_open_max_requests = 3`, reset
timeout 10ns elapsed at every call; call 2 is admitted and call 4 is
denied. -/
theorem breaker_half_open_admissions_witness :
    (AllowRequest (allowRun ⟨⟨5, 10, 3, 2⟩, .StateOpen, 5, 0, 0, 0⟩
      (fun _ => 100) 2) 100).1 = true ∧
    (AllowRequest (allowRun ⟨⟨5, 10, 3, 2⟩, .StateOpen, 5, 0, 0, 0⟩
      (fun _ => 100) 4) 100).1 = false :=
  breaker_half_open_admissions _ (fun _ => 100) 3 2 rfl (by decide) rfl (by decide)

end circuitbreaker

namespace loadbalancer

lemma U64_pos : 0 < U64 := by norm_num [U64]

lemma selectScan_some_healthy (bs : List Backend) (c k : ℕ) (b : Backend)
    (hx : bs[((c + 1) % U64) % bs.length]? = some b) (hb : b.IsHealthy = true) :
    selectScan bs c (k + 1) = (some b, (c + 1) % U64) := by
  conv_lhs => unfold selectScan
  rw [hx]
  simp [hb]

lemma selectScan_some_unhealthy (bs : List Backend) (c k : ℕ) (b : Backend)
    (hx : bs[((c + 1) % U64) % bs.length]? = some b) (hb : ¬b.IsHealthy = true) :
    selectScan bs c (k + 1) = selectScan bs ((c + 1) % U64) k := by
  conv_lhs => unfold selectScan
  rw [hx]
  simp [hb]

lemma selectScan_oob (bs : List Backend) (c k : ℕ)
    (hx : bs[((c + 1) % U64) % bs.length]? = none) :
    selectScan bs c (k + 1) = (none, (c + 1) % U64) := by
  conv_lhs => unfold selectScan
  rw [hx]

lemma scanSteps_some_healthy (bs : List Backend) (c k : ℕ) (b : Backend)
    (hx : bs[((c + 1) % U64) % bs.length]? = some b) (hb : b.IsHealthy = true) :
    scanSteps bs c (k + 1) = 1 := by
  conv_lhs => unfold scanSteps
  rw [hx]
  simp [hb]

lemma scanSteps_some_unhealthy (bs : List Backend) (c k : ℕ) (b : Backend)
    (hx : bs[((c + 1) % U64) % bs.length]? = some b) (hb : ¬b.IsHealthy = true) :
    scanSteps bs c (k + 1) = 1 + scanSteps bs ((c + 1) % U64) k := by
  conv_lhs => unfold scanSteps
  rw [hx]
  simp [hb]

lemma scanSteps_oob (bs : List Backend) (c k : ℕ)
    (hx : bs[((c + 1) % U64) % bs.length]? = none) :
    scanSteps bs c (k + 1) = 1 := by
  conv_lhs => unfold scanSteps
  rw [hx]

lemma selectScan_healthy (bs : List Backend) :
    ∀ fuel c b, (selectScan bs c fuel).1 = some b → b.IsHealthy = true := by
  intro fuel
  induction fuel with
  | zero => intro c b h; simp [selectScan] at h
  | succ k ih =>
      intro c b h
      rcases hx : bs[((c + 1) % U64) % bs.length]? with _ | b2
      · rw [selectScan_oob bs c k hx] at h; simp at h
      · by_cases hb2 : b2.IsHealthy = true
        · rw [selectScan_some_healthy bs c k b2 hx hb2] at h
          simp at h
          rw [← h]
          exact hb2
        · rw [selectScan_some_unhealthy bs c k b2 hx hb2] at h
          exact ih _ b h

lemma scanSteps_le (bs : List Backend) :
    ∀ fuel c, scanSteps bs c fuel ≤ fuel := by
  intro fuel
  induction fuel with
  | zero => intro c; simp [scanSteps]
  | succ k ih =>
      intro c
      rcases hx : bs[((c + 1) % U64) % bs.length]? with _ | b2
      · rw [scanSteps_oob bs c k hx]; omega
      · by_cases hb2 : b2.IsHealthy = true
        · rw [scanSteps_some_healthy bs c k b2 hx hb2]; omega
        · rw [scanSteps_some_unhealthy bs c k b2 hx hb2]
          have := ih ((c + 1) % U64)
          omega

lemma scanSteps_pos (bs : List Backend) (c k : ℕ) :
    1 ≤ scanSteps bs c (k + 1) := by
  rcases hx : bs[((c + 1) % U64) % bs.length]? with _ | b2
  · rw [scanSteps_oob bs c k hx]
  · by_cases hb2 : b2.IsHealthy = true
    · rw [scanSteps_some_healthy bs c k b2 hx hb2]
    · rw [scanSteps_some_unhealthy bs c k b2 hx hb2]
      omega

lemma selectScan_counter (bs : List Backend) :
    ∀ fuel c, c < U64 →
      (selectScan bs c fuel).2 = (c + scanSteps bs c fuel) % U64 := by
  intro fuel
  induction fuel with
  | zero =>
      intro c hc
      simp [selectScan, scanSteps, Nat.mod_eq_of_lt hc]
  | succ k ih =>
      intro c hc
      rcases hx : bs[((c + 1) % U64) % bs.length]? with _ | b2
      · rw [selectScan_oob bs c k hx, scanSteps_oob bs c k hx]
      · by_cases hb2 : b2.IsHealthy = true
        · rw [selectScan_some_healthy bs c k b2 hx hb2,
              scanSteps_some_healthy bs c k b2 hx hb2]
        · rw [selectScan_some_unhealthy bs c k b2 hx hb2,
              scanSteps_some_unhealthy bs c k b2 hx hb2]
          rw [ih ((c + 1) % U64) (Nat.mod_lt _ U64_pos)]
          rw [Nat.mod_add_mod]
          have harith : c + 1 + scanSteps bs ((c + 1) % U64) k =
              c + (1 + scanSteps bs ((c + 1) % U64) k) := by omega
          rw [harith]

lemma selectScan_finds (bs : List Backend) :
    ∀ fuel c, c + fuel < U64 →
      (∃ i, i < fuel ∧ candidateHealthy bs ((c + 1 + i) % bs.length) = true) →
      ∃ b, (selectScan bs c fuel).1 = some b := by
  intro fuel
  induction fuel with
  | zero => rintro c _ ⟨i, hi, _⟩; omega
  | succ k ih =>
      rintro c hc ⟨i, hi, hcand⟩
      have hc1 : (c + 1) % U64 = c + 1 := Nat.mod_eq_of_lt (by omega)
      rcases hx : bs[((c + 1) % U64) % bs.length]? with _ | b2
      · exfalso
        have hlen : bs.length = 0 := by
          by_contra hlen
          have hpos : 0 < bs.length := Nat.pos_of_ne_zero hlen
          rw [List.getElem?_eq_getElem (Nat.mod_lt _ hpos)] at hx
          exact Option.noConfusion hx
        have hbs : bs = [] := List.length_eq_zero.mp hlen
        rw [hbs] at hcand
        simp [candidateHealthy] at hcand
      · by_cases hb2 : b2.IsHealthy = true
        · exact ⟨b2, by rw [selectScan_some_healthy bs c k b2 hx hb2]⟩
        · rw [selectScan_some_unhealthy bs c k b2 hx hb2]
          have hfirst : candidateHealthy bs (((c + 1) % U64) % bs.length) = false := by
            unfold candidateHealthy
            rw [hx]
            simpa using hb2
          have hi0 : i ≠ 0 := by
            intro h0
            rw [h0] at hcand
            rw [hc1] at hfirst
            simp only [Nat.add_zero] at hcand
            rw [hcand] at hfirst
            exact Bool.noConfusion hfirst
          obtain ⟨i2, rfl⟩ := Nat.exists_eq_succ_of_ne_zero hi0
          rw [hc1]
          refine ih (c + 1) (by omega) ⟨i2, by omega, ?_⟩
          simp only [Nat.succ_eq_add_one] at hcand
          have harith : c + 1 + 1 + i2 = c + 1 + (i2 + 1) := by omega
          rw [harith]
          exact hcand

lemma exists_healthy_candidate (bs : List Backend) (c : ℕ) (hne : bs ≠ [])
    (hh : ∃ b ∈ bs, b.IsHealthy = true) :
    ∃ i, i < bs.length ∧ candidateHealthy bs ((c + 1 + i) % bs.length) = true := by
  obtain ⟨b, hb, hbh⟩ := hh
  obtain ⟨idx, hidx, hbeq⟩ := List.mem_iff_getElem.mp hb
  have hlen : 0 < bs.length := List.length_pos.mpr hne
  refine ⟨(idx + bs.length - (c + 1) % bs.length) % bs.length, Nat.mod_lt _ hlen, ?_⟩
  have ha : (c + 1) % bs.length < bs.length := Nat.mod_lt _ hlen
  have hmod : (c + 1 + (idx + bs.length - (c + 1) % bs.length) % bs.length) %
      bs.length = idx := by
    rw [Nat.add_mod_mod]
    rw [← Nat.mod_add_mod]
    have h2 : (c + 1) % bs.length + (idx + bs.length - (c + 1) % bs.length) =
        idx + bs.length := by omega
    rw [h2]
    rw [Nat.add_mod_right]
    exact Nat.mod_eq_of_lt hidx
  rw [hmod]
  unfold candidateHealthy
  rw [List.getElem?_eq_getElem hidx, hbeq]
  exact hbh

/-- C8 (amended): an unhealthy backend is never returned by `Select`; if
no backend is healthy, `Select` returns `none`; and whenever some backend
is healthy and the scan does not straddle the `2^64` wraparound of the
counter (`counter + n < 2^64`), `Select` returns a (healthy) backend.  At
the wraparound the scan can miss the healthy backend (see the
counterexample), so the claim's "returns none exactly when no backend is
healthy" holds only away from it. -/
theorem roundRobin_select_health (r : RoundRobinSelector) (b : Backend) :
    ((Select r).1 = some b → b.IsHealthy = true) ∧
    ((∀ b2 ∈ r.backends, b2.IsHealthy = false) → (Select r).1 = none) ∧
    (r.counter + r.backends.length < U64 →
      (∃ b2 ∈ r.backends, b2.IsHealthy = true) →
      ∃ b3, (Select r).1 = some b3) := by
  refine ⟨?_, ?_, ?_⟩
  · intro h
    unfold Select at h
    by_cases h0 : r.backends.length = 0
    · rw [if_pos h0] at h; simp at h
    · rw [if_neg h0] at h
      by_cases hcnt : r.backends.countP (fun b2 => b2.IsHealthy) = 0
      · rw [if_pos hcnt] at h; simp at h
      · rw [if_neg hcnt] at h
        exact selectScan_healthy r.backends r.backends.length r.counter b h
  · intro hall
    unfold Select
    by_cases h0 : r.backends.length = 0
    · rw [if_pos h0]
    · rw [if_neg h0]
      have hcnt : r.backends.countP (fun b2 => b2.IsHealthy) = 0 := by
        rw [List.countP_eq_zero]
        intro b2 hb2
        simp [hall b2 hb2]
      rw [if_pos hcnt]
  · intro hcb hh
    have hne : r.backends ≠ [] := by
      intro hE
      rw [hE] at hh
      obtain ⟨b2, hb2, _⟩ := hh
      simp at hb2
    have h0 : ¬(r.backends.length = 0) := by
      simpa using fun h => hne (List.length_eq_zero.mp h)
    have hcnt : ¬(r.backends.countP (fun b2 => b2.IsHealthy) = 0) := by
      intro hz
      rw [List.countP_eq_zero] at hz
      obtain ⟨b2, hb2, hbh⟩ := hh
      exact hz b2 hb2 (by simp [hbh])
    unfold Select
    rw [if_neg h0, if_neg hcnt]
    exact selectScan_finds r.backends r.backends.length r.counter hcb
      (exists_healthy_candidate r.backends r.counter hne hh)

/-- Witness for the C8 theorem at concrete selectors: a healthy backend is
returned healthy, an all-unhealthy list yields `none`, and a mixed list
away from wraparound yields a backend. -/
theorem roundRobin_select_health_witness :
    Backend.IsHealthy ⟨"http://a:8080", 1, true⟩ = true ∧
    (Select ⟨[⟨"http://a:8080", 1, false⟩, ⟨"http://b:8080", 1, false⟩], 7⟩).1 =
      none ∧
    (∃ b3, (Select ⟨[⟨"http://a:8080", 1, false⟩, ⟨"http://b:8080", 1, true⟩],
      0⟩).1 = some b3) :=
  ⟨(roundRobin_select_health ⟨[⟨"http://a:8080", 1, true⟩], 0⟩
      ⟨"http://a:8080", 1, true⟩).1 (by decide),
   (roundRobin_select_health ⟨[⟨"http://a:8080", 1, false⟩,
      ⟨"http://b:8080", 1, false⟩], 7⟩ ⟨"http://a:8080", 1, true⟩).2.1 (by decide),
   (roundRobin_select_health ⟨[⟨"http://a:8080", 1, false⟩,
      ⟨"http://b:8080", 1, true⟩], 0⟩ ⟨"http://a:8080", 1, true⟩).2.2 (by decide)
      ⟨⟨"http://b:8080", 1, true⟩, by decide⟩⟩

/-- Counterexample to C8 as stated: at counter `2^64 - 2` with three
backends of which only the third is healthy, the scan straddles the
`uint64` wraparound (`2^64 ≡ 1 mod 3`), probes indices 0, 0, 1 and never
index 2, so `Select` returns `none` although a healthy backend exists. -/
theorem roundRobin_select_health_cex :
    (∃ b ∈ ([⟨"http://a:8080", 1, false⟩, ⟨"http://b:8080", 1, false⟩,
        ⟨"http://c:8080", 1, true⟩] : List Backend), b.IsHealthy = true) ∧
    (Select ⟨[⟨"http://a:8080", 1, false⟩, ⟨"http://b:8080", 1, false⟩,
        ⟨"http://c:8080", 1, true⟩], 2 ^ 64 - 2⟩).1 = none := by
  constructor
  · exact ⟨⟨"http://c:8080", 1, true⟩, by decide⟩
  · decide

/-- C3 (amended): when `Select` reaches the scan (some backend is
healthy), the counter advances once per scan iteration — by some
`j ∈ [1, n]` — not once per call: it advances by exactly one iff the first
scanned candidate (index `(counter+1) % 2^64 % n`) is healthy, and by at
least two when that candidate is unhealthy.  The unhealthy-skip scan
therefore does cause additional counter advances within a single call. -/
theorem roundRobin_counter_advance (r : RoundRobinSelector)
    (hh : ∃ b ∈ r.backends, b.IsHealthy = true) (hc : r.counter < U64) :
    ∃ j, 1 ≤ j ∧ j ≤ r.backends.length ∧
      (Select r).2.counter = (r.counter + j) % U64 ∧
      (candidateHealthy r.backends
        (((r.counter + 1) % U64) % r.backends.length) = true → j = 1) ∧
      (candidateHealthy r.backends
        (((r.counter + 1) % U64) % r.backends.length) = false → 2 ≤ j) := by
  have hne : r.backends ≠ [] := by
    intro hE
    rw [hE] at hh
    obtain ⟨b2, hb2, _⟩ := hh
    simp at hb2
  have hpos : 0 < r.backends.length := List.length_pos.mpr hne
  have h0 : ¬(r.backends.length = 0) := by omega
  have hcnt : ¬(r.backends.countP (fun b2 => b2.IsHealthy) = 0) := by
    intro hz
    rw [List.countP_eq_zero] at hz
    obtain ⟨b2, hb2, hbh⟩ := hh
    exact hz b2 hb2 (by simp [hbh])
  obtain ⟨k, hk⟩ : ∃ k, r.backends.length = k + 1 := ⟨r.backends.length - 1, by omega⟩
  refine ⟨scanSteps r.backends r.counter r.backends.length, ?_, ?_, ?_, ?_, ?_⟩
  · rw [hk]; exact scanSteps_pos r.backends r.counter k
  · exact scanSteps_le r.backends r.backends.length r.counter
  · unfold Select
    rw [if_neg h0, if_neg hcnt]
    exact selectScan_counter r.backends r.backends.length r.counter hc
  · intro hcand
    unfold candidateHealthy at hcand
    rcases hx : r.backends[((r.counter + 1) % U64) % r.backends.length]? with _ | b2
    · rw [hx] at hcand; simp at hcand
    · rw [hx] at hcand
      simp at hcand
      rw [hk]
      exact scanSteps_some_healthy r.backends r.counter k b2 hx hcand
  · intro hcand
    unfold candidateHealthy at hcand
    rcases hx : r.backends[((r.counter + 1) % U64) % r.backends.length]? with _ | b2
    · exfalso
      rw [List.getElem?_eq_getElem (Nat.mod_lt _ hpos)] at hx
      exact Option.noConfusion hx
    · rw [hx] at hcand
      simp at hcand
      rcases Nat.eq_zero_or_pos k with hk0 | hk1
      · exfalso
        subst hk0
        have hidx : (((r.counter + 1) % U64) % r.backends.length) = 0 := by
          rw [hk]
          exact Nat.mod_one _
        rw [hidx] at hx
        obtain ⟨a, ha⟩ := List.length_eq_one.mp hk
        obtain ⟨b3, hb3mem, hbh3⟩ := hh
        rw [ha] at hx hb3mem
        simp at hx hb3mem
        have hb2h : b2.IsHealthy = true := by
          rw [← hx, ← hb3mem]
          exact hbh3
        rw [hb2h] at hcand
        exact Bool.noConfusion hcand
      · obtain ⟨k2, rfl⟩ : ∃ k2, k = k2 + 1 := ⟨k - 1, by omega⟩
        rw [hk]
        rw [scanSteps_some_unhealthy r.backends r.counter (k2 + 1) b2 hx
          (by simp [hcand])]
        have := scanSteps_pos r.backends ((r.counter + 1) % U64) k2
        omega

/-- Witness for the C3 theorem at a two-backend selector whose first
scanned candidate is unhealthy. -/
theorem roundRobin_counter_advance_witness :
    ∃ j, 1 ≤ j ∧
      j ≤ (RoundRobinSelector.mk [⟨"http://a:8080", 1, true⟩,
        ⟨"http://b:8080", 1, false⟩] 0).backends.length ∧
      (Select (RoundRobinSelector.mk [⟨"http://a:8080", 1, true⟩,
        ⟨"http://b:8080", 1, false⟩] 0)).2.counter = ((0 + j) % U64) ∧
      (candidateHealthy (RoundRobinSelector.mk [⟨"http://a:8080", 1, true⟩,
        ⟨"http://b:8080", 1, false⟩] 0).backends (((0 + 1) % U64) % 2) = true →
        j = 1) ∧
      (candidateHealthy (RoundRobinSelector.mk [⟨"http://a:8080", 1, true⟩,
        ⟨"http://b:8080", 1, false⟩] 0).backends (((0 + 1) % U64) % 2) = false →
        2 ≤ j) :=
  roundRobin_counter_advance
    (RoundRobinSelector.mk [⟨"http://a:8080", 1, true⟩,
      ⟨"http://b:8080", 1, false⟩] 0) ⟨⟨"http://a:8080", 1, true⟩, by decide⟩
    (by norm_num [U64])

/-- Counterexample to C3 as stated: with backends `[healthy, unhealthy]`
and counter 0, one `Select` call lands first on the unhealthy index 1,
skips to index 0, and leaves the counter at 2 — an advance of two, not
exactly one. -/
theorem roundRobin_counter_advance_cex :
    (Select ⟨[⟨"http://a:8080", 1, true⟩, ⟨"http://b:8080", 1, false⟩],
        0⟩).2.counter = 2 ∧
    ¬((Select ⟨[⟨"http://a:8080", 1, true⟩, ⟨"http://b:8080", 1, false⟩],
        0⟩).2.counter = 0 + 1) := by
  decide

end loadbalancer

namespace ratelimit

lemma allowWithBurst_some_eq (rl : RateLimiter) (now u : ℤ) (t : ℚ) (burstSize : ℤ) :
    AllowWithBurst rl now (some t) (some u) burstSize =
      Except.ok
        ({ Allowed := decide (1 ≤ specRefill rl now t u burstSize),
           Remaining := goTrunc (if decide (1 ≤ specRefill rl now t u burstSize) = true
             then specRefill rl now t u burstSize - 1
             else specRefill rl now t u burstSize),
           ResetAfter := goTrunc ((1000000000 : ℚ) /
             ((rl.requests : ℚ) / ((rl.window : ℚ) / 1000000000))) },
         { tokens := if decide (1 ≤ specRefill rl now t u burstSize) = true
             then specRefill rl now t u burstSize - 1
             else specRefill rl now t u burstSize,
           lastUpdate := now }) := rfl

/-- C1 (amended): when every KV read fails — in particular when the KV is
unreachable, since the source inspects only each command's `err` and
ignores the pipeline error — `AllowWithBurst` does not fail.  It treats
the failed reads as a missing bucket (`tokens = burst_size`,
`last_update = now`) and returns a normal admission decision with a nil
error, reporting `allowed = true` whenever `burst_size ≥ 1`.  No
`ErrRateLimitBackend` exists in the source; no return site of
`AllowWithBurst` produces a non-nil error. -/
theorem allowWithBurst_kv_down_allows (rl : RateLimiter) (now burstSize : ℤ)
    (hb : 1 ≤ burstSize) :
    ∃ res w, AllowWithBurst rl now none none burstSize = Except.ok (res, w) ∧
      res.Allowed = true := by
  refine ⟨_, _, allowWithBurst_some_eq rl now now ((burstSize : ℚ)) burstSize, ?_⟩
  · show decide (1 ≤ specRefill rl now ((burstSize : ℚ)) now burstSize) = true
    rw [decide_eq_true_eq]
    unfold specRefill
    have h0 : ((now - now : ℤ) : ℚ) = 0 := by push_cast; ring
    rw [h0]
    have hb2 : (1 : ℚ) ≤ (burstSize : ℚ) := by exact_mod_cast hb
    rw [zero_div, zero_mul, add_zero]
    exact le_min hb2 hb2

/-- Witness for the C1 theorem at a concrete limiter (60 requests per
60-second window, burst 10) with both KV reads failing. -/
theorem allowWithBurst_kv_down_allows_witness :
    ∃ res w,
      AllowWithBurst ⟨60, 60000000000⟩ 1234 none none 10 = Except.ok (res, w) ∧
      res.Allowed = true :=
  allowWithBurst_kv_down_allows ⟨60, 60000000000⟩ 1234 10 (by norm_num)

/-- Counterexample to C1 as stated: with the KV unreachable (both reads
fail) the call returns a nil error and `allowed = true` with
`remaining = 9` — it neither fails with `ErrRateLimitBackend` nor
withholds an admission decision. -/
theorem allowWithBurst_kv_down_cex :
    AllowWithBurst ⟨60, 60000000000⟩ 0 none none 10 =
      Except.ok ({ Allowed := true, Remaining := 9, ResetAfter := 1000000000 },
        { tokens := 9, lastUpdate := 0 }) := by
  show AllowWithBurst ⟨60, 60000000000⟩ 0 (some ((10 : ℤ) : ℚ)) (some 0) 10 = _
  rw [allowWithBurst_some_eq]
  norm_num [specRefill, goTrunc]

lemma specRefill_nonneg (rl : RateLimiter) (now u : ℤ) (t : ℚ) (burstSize : ℤ)
    (ht : 0 ≤ t) (hu : u ≤ now) (hb : 1 ≤ burstSize) (hw : 0 < rl.window)
    (hr : 0 ≤ rl.requests) : 0 ≤ specRefill rl now t u burstSize := by
  unfold specRefill
  have hb2 : (1 : ℚ) ≤ (burstSize : ℚ) := by exact_mod_cast hb
  have h1 : (0 : ℚ) ≤ ((now - u : ℤ) : ℚ) := by
    have := sub_nonneg.mpr hu
    exact_mod_cast this
  have h2 : (0 : ℚ) ≤ (rl.requests : ℚ) := by exact_mod_cast hr
  have h3 : (0 : ℚ) ≤ (rl.window : ℚ) := by exact_mod_cast hw.le
  have h4 : (0 : ℚ) ≤ ((now - u : ℤ) : ℚ) / 1000000000 *
      ((rl.requests : ℚ) / ((rl.window : ℚ) / 1000000000)) := by
    apply mul_nonneg
    · exact div_nonneg h1 (by norm_num)
    · exact div_nonneg h2 (div_nonneg h3 (by norm_num))
  apply le_min
  · linarith
  · linarith

lemma specPostTokens_nonneg (rl : RateLimiter) (now u : ℤ) (t : ℚ) (burstSize : ℤ)
    (ht : 0 ≤ t) (hu : u ≤ now) (hb : 1 ≤ burstSize) (hw : 0 < rl.window)
    (hr : 0 ≤ rl.requests) : 0 ≤ specPostTokens rl now t u burstSize := by
  have h := specRefill_nonneg rl now u t burstSize ht hu hb hw hr
  unfold specPostTokens
  by_cases h1 : 1 ≤ specRefill rl now t u burstSize
  · rw [if_pos h1]; linarith
  · rw [if_neg h1]; exact h

/-- C4: `AllowWithBurst` on stored state `(t, u)` computes the spec's
refill `min(burst_size, t + elapsed_seconds × rate)` with
`rate = requests_per_window / window_seconds` and `elapsed = now − u`,
admits iff that count is at least 1, deducts exactly one token before
writing back, and returns `remaining = ⌊post-decision tokens⌋`; a call
with both KV reads missing behaves exactly as `t = burst_size`,
`u = now`. -/
theorem allowWithBurst_token_bucket (rl : RateLimiter) (now u : ℤ) (t : ℚ)
    (burstSize : ℤ) (ht : 0 ≤ t) (hu : u ≤ now) (hb : 1 ≤ burstSize)
    (hw : 0 < rl.window) (hr : 0 ≤ rl.requests) :
    ∃ res w, AllowWithBurst rl now (some t) (some u) burstSize =
        Except.ok (res, w) ∧
      (res.Allowed = true ↔ 1 ≤ specRefill rl now t u burstSize) ∧
      w.tokens = specPostTokens rl now t u burstSize ∧
      w.lastUpdate = now ∧
      res.Remaining = ⌊specPostTokens rl now t u burstSize⌋ ∧
      AllowWithBurst rl now none none burstSize =
        AllowWithBurst rl now (some ((burstSize : ℤ) : ℚ)) (some now) burstSize := by
  have hbridge : (if decide (1 ≤ specRefill rl now t u burstSize) = true
      then specRefill rl now t u burstSize - 1
      else specRefill rl now t u burstSize) = specPostTokens rl now t u burstSize := by
    unfold specPostTokens
    by_cases h1 : 1 ≤ specRefill rl now t u burstSize
    · rw [if_pos h1, if_pos (by rw [decide_eq_true_eq]; exact h1)]
    · rw [if_neg h1, if_neg (by rw [decide_eq_true_eq]; exact h1)]
  refine ⟨_, _, allowWithBurst_some_eq rl now u t burstSize, ?_, ?_, rfl, ?_, rfl⟩
  · show decide (1 ≤ specRefill rl now t u burstSize) = true ↔
      1 ≤ specRefill rl now t u burstSize
    rw [decide_eq_true_eq]
  · exact hbridge
  · show goTrunc (if decide (1 ≤ specRefill rl now t u burstSize) = true
      then specRefill rl now t u burstSize - 1
      else specRefill rl now t u burstSize) = _
    rw [hbridge]
    unfold goTrunc
    rw [if_neg (not_lt.mpr (specPostTokens_nonneg rl now u t burstSize ht hu hb hw hr))]

/-- Witness for the C4 theorem at a concrete limiter and stored state
(1.5 tokens stored 2 seconds ago at one token per second, burst 10). -/
theorem allowWithBurst_token_bucket_witness :
    ∃ res w, AllowWithBurst ⟨60, 60000000000⟩ 2000000000 (some (3 / 2))
        (some 0) 10 = Except.ok (res, w) ∧
      (res.Allowed = true ↔
        1 ≤ specRefill ⟨60, 60000000000⟩ 2000000000 (3 / 2) 0 10) ∧
      w.tokens = specPostTokens ⟨60, 60000000000⟩ 2000000000 (3 / 2) 0 10 ∧
      w.lastUpdate = 2000000000 ∧
      res.Remaining = ⌊specPostTokens ⟨60, 60000000000⟩ 2000000000 (3 / 2) 0 10⌋ ∧
      AllowWithBurst ⟨60, 60000000000⟩ 2000000000 none none 10 =
        AllowWithBurst ⟨60, 60000000000⟩ 2000000000 (some ((10 : ℤ) : ℚ))
          (some 2000000000) 10 :=
  allowWithBurst_token_bucket ⟨60, 60000000000⟩ 2000000000 0 (3 / 2) 10
    (by norm_num) (by norm_num) (by norm_num) (by norm_num) (by norm_num)

end ratelimit

namespace retry

/-- C6: when the context is not cancelled at the first check and the first
invocation of `fn` returns no error and a non-retryable status,
`Execute` returns after exactly one invocation with `Attempts = 1`,
`Retried = false`, that status, and no error; and its result depends only
on `fn`'s first invocation (replacing `fn` by any function that agrees at
0 leaves the result unchanged — `fn` is invoked exactly once). -/
theorem retry_single_attempt (r : Retryer) (ctxCheckErr sleepErr : ℕ → Option GoError)
    (u : ℕ → ℚ) (fn fn2 : ℕ → ℤ × Option GoError)
    (hmr : 0 ≤ r.config.MaxRetries)
    (hctx : ctxCheckErr 0 = none)
    (herr : (fn 0).2 = none)
    (hstatus : ShouldRetry r (fn 0).1 = false)
    (hagree : fn2 0 = fn 0) :
    Execute r ctxCheckErr sleepErr u fn =
      ({ Attempts := 1, LastError := none, StatusCode := (fn 0).1,
         Retried := false }, []) ∧
    Execute r ctxCheckErr sleepErr u fn2 = Execute r ctxCheckErr sleepErr u fn := by
  obtain ⟨k, hk⟩ : ∃ k, (r.config.MaxRetries + 1).toNat = k + 1 :=
    ⟨r.config.MaxRetries.toNat, by omega⟩
  constructor
  · unfold Execute
    rw [hk]
    simp [executeLoop, hctx, herr, hstatus]
  · unfold Execute
    rw [hk]
    simp [executeLoop, hctx, herr, hstatus, hagree]

/-- Witness for the C6 theorem: default-shaped configuration, a function
returning 200 with no error, and a live context. -/
theorem retry_single_attempt_witness :
    Execute ⟨⟨3, 100000000, 5000000000, 2, 1 / 10, [502, 503, 504]⟩⟩
      (fun _ => none) (fun _ => none) (fun _ => 0) (fun _ => (200, none)) =
      ({ Attempts := 1, LastError := none, StatusCode := 200,
         Retried := false }, []) ∧
    Execute ⟨⟨3, 100000000, 5000000000, 2, 1 / 10, [502, 503, 504]⟩⟩
      (fun _ => none) (fun _ => none) (fun _ => 0)
      (fun k => (if k = 0 then 200 else 503, none)) =
      Execute ⟨⟨3, 100000000, 5000000000, 2, 1 / 10, [502, 503, 504]⟩⟩
        (fun _ => none) (fun _ => none) (fun _ => 0) (fun _ => (200, none)) :=
  retry_single_attempt ⟨⟨3, 100000000, 5000000000, 2, 1 / 10, [502, 503, 504]⟩⟩
    (fun _ => none) (fun _ => none) (fun _ => 0) (fun _ => (200, none))
    (fun k => (if k = 0 then 200 else 503, none))
    (by norm_num) rfl rfl (by norm_num [ShouldRetry]) (by norm_num)

/-- C7 (amended): for retry attempt indices `i ≥ 1` the jittered delay of
`GetDelay` lies within `[delay_i (1 − j), delay_i (1 + j)]` with
`delay_i = min(max_delay, initial_delay × multiplier^i)`; but for `i = 0`
(the sleep before attempt 1, `Execute` calls `GetDelay(attempt − 1)`)
`GetDelay` returns `initial_delay` directly, with neither the `max_delay`
cap nor jitter applied, so the claimed bound fails whenever
`initial_delay > max_delay` — a configuration `New` accepts. -/
theorem retry_backoff_bound (r : Retryer) (u : ℚ) (i : ℤ)
    (hinit : 0 < r.config.InitialDelay) (hmax : 0 < r.config.MaxDelay)
    (hmult : 0 < r.config.Multiplier)
    (hj0 : 0 ≤ r.config.JitterFactor) (_hj1 : r.config.JitterFactor ≤ 1)
    (hu0 : 0 ≤ u) (hu1 : u ≤ 1) :
    GetDelay r u 0 = r.config.InitialDelay ∧
    (1 ≤ i →
      min r.config.MaxDelay (r.config.InitialDelay * r.config.Multiplier ^ i.toNat) *
          (1 - r.config.JitterFactor) ≤ GetDelay r u i ∧
      GetDelay r u i ≤
        min r.config.MaxDelay (r.config.InitialDelay * r.config.Multiplier ^ i.toNat) *
          (1 + r.config.JitterFactor)) := by
  constructor
  · unfold GetDelay
    rw [if_pos (by omega)]
  · intro hi
    have hd0 : 0 < r.config.InitialDelay * r.config.Multiplier ^ i.toNat :=
      mul_pos hinit (pow_pos hmult _)
    have hcap : cappedDelay r i =
        min r.config.MaxDelay (r.config.InitialDelay * r.config.Multiplier ^ i.toNat) := by
      unfold cappedDelay
      by_cases hgt : r.config.InitialDelay * r.config.Multiplier ^ i.toNat >
          r.config.MaxDelay
      · rw [if_pos hgt]
        exact (min_eq_left hgt.le).symm
      · rw [if_neg hgt]
        exact (min_eq_right (not_lt.mp hgt)).symm
    have hdpos : 0 < min r.config.MaxDelay
        (r.config.InitialDelay * r.config.Multiplier ^ i.toNat) :=
      lt_min hmax hd0
    unfold GetDelay
    rw [if_neg (by omega), hcap]
    by_cases hjpos : r.config.JitterFactor > 0
    · rw [if_pos hjpos]
      have hP1 : 0 ≤ min r.config.MaxDelay
          (r.config.InitialDelay * r.config.Multiplier ^ i.toNat) *
          r.config.JitterFactor * u :=
        mul_nonneg (mul_nonneg hdpos.le hj0) hu0
      have hP2 : 0 ≤ min r.config.MaxDelay
          (r.config.InitialDelay * r.config.Multiplier ^ i.toNat) *
          r.config.JitterFactor * (1 - u) :=
        mul_nonneg (mul_nonneg hdpos.le hj0) (by linarith)
      constructor <;> nlinarith [hP1, hP2]
    · rw [if_neg hjpos]
      have hj : r.config.JitterFactor = 0 := le_antisymm (not_lt.mp hjpos) hj0
      rw [hj]
      constructor <;> nlinarith [hdpos]

/-- Witness for the C7 theorem: the default configuration, jitter draw
1/2, attempt index 1. -/
theorem retry_backoff_bound_witness :
    GetDelay ⟨⟨3, 100000000, 5000000000, 2, 1 / 10, [502, 503, 504]⟩⟩ (1 / 2) 0 =
      (100000000 : ℚ) ∧
    (1 ≤ (1 : ℤ) →
      min (5000000000 : ℚ) (100000000 * 2 ^ (1 : ℤ).toNat) * (1 - 1 / 10) ≤
        GetDelay ⟨⟨3, 100000000, 5000000000, 2, 1 / 10, [502, 503, 504]⟩⟩ (1 / 2) 1 ∧
      GetDelay ⟨⟨3, 100000000, 5000000000, 2, 1 / 10, [502, 503, 504]⟩⟩ (1 / 2) 1 ≤
        min (5000000000 : ℚ) (100000000 * 2 ^ (1 : ℤ).toNat) * (1 + 1 / 10)) :=
  retry_backoff_bound ⟨⟨3, 100000000, 5000000000, 2, 1 / 10, [502, 503, 504]⟩⟩
    (1 / 2) 1 (by norm_num) (by norm_num) (by norm_num) (by norm_num)
    (by norm_num) (by norm_num) (by norm_num)

/-- Counterexample to C7 as stated: `New` accepts
`initial_delay = 10s > max_delay = 5s` (it validates the fields only
individually), and with `jitter = 0` the delay slept before attempt 1 is
`GetDelay(0) = 10s`, outside the claimed interval
`[min(5s, 10s) × 1, min(5s, 10s) × 1] = [5s, 5s]`. -/
theorem retry_backoff_bound_cex :
    GetDelay (New ⟨3, 10000000000, 5000000000, 2, 0, [502, 503, 504]⟩) 0 0 =
      10000000000 ∧
    ¬(min (5000000000 : ℚ) (10000000000 * 2 ^ (0 : ℤ).toNat) * (1 - 0) ≤
        (10000000000 : ℚ) ∧
      (10000000000 : ℚ) ≤
        min (5000000000 : ℚ) (10000000000 * 2 ^ (0 : ℤ).toNat) * (1 + 0)) := by
  constructor
  · norm_num [New, GetDelay]
  · norm_num

end retry

namespace health

/-- C9: for a service with at least one instance, the recomputed
aggregated status is healthy iff at least one instance's status is
healthy, and unhealthy otherwise. -/
theorem health_aggregation (instances : List InstanceHealth) (old : Status)
    (hne : instances ≠ []) :
    (aggregatedStatus instances old = Status.StatusHealthy ↔
      ∃ i ∈ instances, i.Status = Status.StatusHealthy) ∧
    ((¬∃ i ∈ instances, i.Status = Status.StatusHealthy) →
      aggregatedStatus instances old = Status.StatusUnhealthy) := by
  have h0 : ¬(instances.length = 0) := by
    simpa using fun h => hne (List.length_eq_zero.mp h)
  unfold aggregatedStatus
  rw [if_neg h0]
  by_cases hex : ∃ i ∈ instances, i.Status = Status.StatusHealthy
  · have hpos : 0 < instances.countP (fun i => i.Status == Status.StatusHealthy) := by
      rw [List.countP_pos_iff]
      obtain ⟨i, hmem, hst⟩ := hex
      exact ⟨i, hmem, by simp [hst]⟩
    constructor
    · by_cases hall : instances.countP (fun i => i.Status == Status.StatusHealthy) =
          instances.length
      · rw [if_pos hall]
        simp [hex]
      · rw [if_neg hall, if_pos hpos]
        simp [hex]
    · intro hnot
      exact absurd hex hnot
  · have hz : instances.countP (fun i => i.Status == Status.StatusHealthy) = 0 := by
      rw [List.countP_eq_zero]
      intro i hmem
      simp only [beq_iff_eq]
      intro hst
      exact hex ⟨i, hmem, hst⟩
    rw [hz]
    have hlen : ¬((0 : ℕ) = instances.length) := by
      intro h
      exact h0 h.symm
    rw [if_neg hlen, if_neg (by omega)]
    constructor
    · constructor
      · intro h
        exact Status.noConfusion h
      · intro h
        exact absurd h hex
    · intro _
      rfl

/-- Witness for the C9 theorem at a concrete two-instance service with
one healthy instance. -/
theorem health_aggregation_witness :
    (aggregatedStatus [⟨"http://a:8080", .StatusHealthy, 0, 5, ""⟩,
        ⟨"http://b:8080", .StatusUnhealthy, 0, 7, "connection refused"⟩]
        Status.StatusUnknown = Status.StatusHealthy ↔
      ∃ i ∈ ([⟨"http://a:8080", .StatusHealthy, 0, 5, ""⟩,
        ⟨"http://b:8080", .StatusUnhealthy, 0, 7, "connection refused"⟩] :
          List InstanceHealth), i.Status = Status.StatusHealthy) ∧
    ((¬∃ i ∈ ([⟨"http://a:8080", .StatusHealthy, 0, 5, ""⟩,
        ⟨"http://b:8080", .StatusUnhealthy, 0, 7, "connection refused"⟩] :
          List InstanceHealth), i.Status = Status.StatusHealthy) →
      aggregatedStatus [⟨"http://a:8080", .StatusHealthy, 0, 5, ""⟩,
        ⟨"http://b:8080", .StatusUnhealthy, 0, 7, "connection refused"⟩]
        Status.StatusUnknown = Status.StatusUnhealthy) :=
  health_aggregation _ Status.StatusUnknown (by decide)

end health
